import Mathlib

/-!
Shallow embedding of `src/tools/genpolicy/update_policy_samples.py`:
a harness that runs external `genpolicy` commands in a thread pool,
logging each command's output and timing, and surfacing failures.

External effects (child processes, wall-clock readings, the sample
catalog loaded from `policy_samples.json`) are supplied as explicit
parameters/oracles; everything the Python source computes is embedded
as executable Lean definitions.
-/

/-- Result object of a successful `subprocess.run` call: the captured merged
stdout/stderr text and the exit status (`returncode`). -/
structure CompletedProcess where
  stdout : String
  returncode : Int
deriving DecidableEq, Repr

/-- Outcome of the operating system running `subprocess.run([arg], shell=True, ...)`:
either the shell was spawned and the command line ran to termination with some
merged output and exit status, or spawning the shell itself failed at the OS
level (which surfaces as an `OSError` in Python). This is the oracle describing
the external world; the Python code never inspects it except through
`subprocess.run`'s documented interface. -/
inductive ExecResult where
  | completed (stdout : String) (returncode : Int)
  | oserror (msg : String)
deriving DecidableEq, Repr

/-- Python exceptions that can cross `timeRunCmd`'s boundary:
`subprocess.CalledProcessError` (carrying `returncode` and the captured
output, as set by `check=True` with `stdout=PIPE`), and a spawn-level
`OSError`. -/
inductive PyExn where
  | calledProcessError (returncode : Int) (stdout : String)
  | osError (msg : String)
deriving DecidableEq, Repr

/-- Observable events of one `timeRunCmd` call, in order: writes to the
harness's standard output (`print`), writes to a file path, a normal
return, or an exception propagating to the caller. The Python function's
only own side effect is the single `print`; file writes appear in the
event alphabet so that their absence is expressible. -/
inductive Event where
  | print (s : String)
  | writeFile (path : String) (contents : String)
  | ret
  | raiseExn (e : PyExn)
deriving DecidableEq, Repr

/-- Line 24-25 of the source:
`subprocess.run([arg], stdout=PIPE, stderr=STDOUT, universal_newlines=True, input="", shell=True, check=True)`.
With `check=True`, a non-zero exit status raises
`CalledProcessError(returncode, output=stdout)`; a zero exit status returns the
`CompletedProcess`; an OS-level spawn failure of the shell raises `OSError`.
The `exec` parameter is the oracle for what the spawned shell does. -/
def runCmd (exec : String → ExecResult) (arg : String) : Except PyExn CompletedProcess :=
  match exec arg with
  | .oserror m => .error (.osError m)
  | .completed out code =>
      if code = 0 then .ok ⟨out, code⟩
      else .error (.calledProcessError code out)

/-- Python `round(x, 2)` scaled by 100: round `q * 100` to the nearest integer,
ties to even (banker's rounding). Clock readings are idealised as exact
rationals, so this is exact round-half-even rather than binary-float rounding. -/
def roundHalfEven100 (q : ℚ) : Int :=
  let f : Int := ⌊q * 100⌋
  let r : ℚ := q * 100 - f
  if r < 1/2 then f
  else if r > 1/2 then f + 1
  else if f % 2 = 0 then f else f + 1

/-- Decimal rendering of `round(q, 2)` the way a Python `float` with at most two
decimals prints inside an f-string: at least one digit after the point,
trailing zero of the hundredths digit dropped (`2.0`, `2.5`, `0.35`). -/
def reprRound2 (q : ℚ) : String :=
  let n := roundHalfEven100 q
  let sign := if n < 0 then "-" else ""
  let a := n.natAbs
  let ip := a / 100
  let fp := a % 100
  if fp = 0 then s!"{sign}{ip}.0"
  else if fp % 10 = 0 then s!"{sign}{ip}.{fp / 10}"
  else if fp < 10 then s!"{sign}{ip}.0{fp}"
  else s!"{sign}{ip}.{fp}"

/-- Header line rendered at line 28 of the source. -/
def commandHeader (arg : String) : String :=
  s!"========== COMMAND: {arg}"

/-- Failure line appended in the `except` clause, line 35 of the source. -/
def failureLine (returncode : Int) : String :=
  s!"+++++ Failed with exit code {returncode}"

/-- Elapsed-time footer appended in the `finally` clause, line 42 of the source. -/
def timeTakenLine (elapsed : ℚ) : String :=
  let t := reprRound2 elapsed
  s!"Time taken: {t} seconds"

/-- Lines 27-43 of the source, `timeRunCmd(arg)`:

```
log = [f"========== COMMAND: {arg}"]
start = time.time()
try:
    p = runCmd(arg)
except subprocess.CalledProcessError as e:
    log.append(e.stdout); log.append(f"+++++ Failed with exit code {e.returncode}"); raise
else:
    if p.stdout: log.append(p.stdout)
finally:
    end = time.time()
    log.append(f"Time taken: {round(end - start, 2)} seconds")
    print("\n".join(log))
```

The two `time.time()` readings are the parameters `startT` and `endT`.
Python's `finally` runs before an exception propagates, so the `print`
event always precedes the `raiseExn` event in the returned trace. -/
def timeRunCmd (exec : String → ExecResult) (startT endT : ℚ) (arg : String) : List Event :=
  let header := commandHeader arg
  let timeLine := timeTakenLine (endT - startT)
  match runCmd exec arg with
  | .error (.calledProcessError code out) =>
      let log := [header, out, failureLine code, timeLine]
      [.print (String.intercalate "\n" log), .raiseExn (.calledProcessError code out)]
  | .error (.osError m) =>
      [.print (String.intercalate "\n" [header, timeLine]), .raiseExn (.osError m)]
  | .ok p =>
      let log := if p.stdout ≠ "" then [header, p.stdout, timeLine] else [header, timeLine]
      [.print (String.intercalate "\n" log), .ret]

/-- POSIX `os.path.basename`: everything after the last `/` (the whole string
when there is no `/`), computed as the longest `/`-free suffix. -/
def basename (s : String) : String :=
  ⟨(s.data.reverse.takeWhile (fun c => c ≠ '/')).reverse⟩

/-- CPython `pathlib.PurePath.stem` on a final path component `name`:
with `i` the index of the last `.`, return `name[:i]` when `0 < i < len(name)-1`,
otherwise `name` unchanged. -/
def stem (name : String) : String :=
  let cs := name.data
  let dotIdxs := (List.range cs.length).filter (fun i => cs.getD i ' ' = '.')
  match dotIdxs.getLast? with
  | some i => if 0 < i ∧ i < cs.length - 1 then ⟨cs.take i⟩ else name
  | none => name

/-- POSIX `os.path.join(base, file)` for the two-argument case used by the
source: `file` when it is absolute, otherwise `base`, a separator if `base`
does not already end in one, then `file`. -/
def joinPath (base file : String) : String :=
  if file.startsWith "/" then file
  else if base = "" ∨ base.endsWith "/" then base ++ file
  else base ++ "/" ++ file

/-- Line 63 of the source. -/
def genpolicy_path : String := "./target/x86_64-unknown-linux-gnu/debug/genpolicy"

/-- Line 22 of the source. -/
def file_base_path : String := "../../agent/samples/policy/yaml"

/-- Lines 69-70 and 74-75 of the source:
`rego_file = "/tmp/" + Path(os.path.basename(file)).stem + "-rego.txt"` —
the per-task destination that the generated policy text is redirected to. -/
def regoFile (file : String) : String :=
  "/tmp/" ++ stem (basename file) ++ "-rego.txt"

/-- Line 71 of the source: the command for the first submission loop,
with the external tool's stdout shell-redirected into `regoFile file`. -/
def cmdDefault (file : String) : String :=
  let p := joinPath file_base_path file
  let rego := regoFile file
  s!"{genpolicy_path} -r -d -u -y {p} > {rego}"

/-- Line 76 of the source: the command for the `silently_ignored` loop,
identical except for the extra `-s` flag. -/
def cmdSilent (file : String) : String :=
  let p := joinPath file_base_path file
  let rego := regoFile file
  s!"{genpolicy_path} -r -d -u -s -y {p} > {rego}"

/-- Modelled from the spec: the sample catalog is parsed from
`policy_samples.json`, a data file of this repository that is not under the
embedded sources; it maps the five category names to lists of YAML file
paths. The lists are left abstract. -/
structure Samples where
  default_yamls : List String
  incomplete_init : List String
  silently_ignored : List String
  no_policy : List String
  needs_containerd_pull : List String

/-- Files submitted in the first loop (line 68 of the source):
`default_yamls + incomplete_init + no_policy + needs_containerd_pull`. -/
def firstLoopFiles (s : Samples) : List String :=
  s.default_yamls ++ s.incomplete_init ++ s.no_policy ++ s.needs_containerd_pull

/-- All files that get a task submitted for them, in submission order
(lines 68-77 of the source). -/
def catalogFiles (s : Samples) : List String :=
  firstLoopFiles s ++ s.silently_ignored

/-- The command lines submitted to the executor, in submission order
(lines 68-77 of the source). -/
def taskCmds (s : Samples) : List String :=
  (firstLoopFiles s).map cmdDefault ++ s.silently_ignored.map cmdSilent

/-- Lines 79-81 of the source:
`for future in as_completed(futures): future.result()`.
The argument is the per-future outcome of `timeRunCmd` (a `None` return or a
propagated exception) listed in completion order; `Future.result()` re-raises
the stored exception, so the loop raises the first failure in completion
order and performs nothing otherwise. -/
def drainLoop (outcomes : List (Except PyExn Unit)) : Except PyExn Unit :=
  match outcomes with
  | [] => .ok ()
  | .ok _ :: rest => drainLoop rest
  | .error e :: _ => .error e

/-- First exception in completion order, or `none` when every task succeeded. -/
def firstError (outcomes : List (Except PyExn Unit)) : Option PyExn :=
  match outcomes with
  | [] => none
  | .ok _ :: rest => firstError rest
  | .error e :: _ => some e

/-- Line 85 of the source: `print(f"Total time taken: {total_end - total_start} seconds")`.
The rendering of the un-rounded float difference is idealised as the exact
rational's decimal/fraction string. -/
def totalTimeLine (elapsed : ℚ) : String :=
  s!"Total time taken: {elapsed} seconds"

/-- Lines 62-85 of the source, after the futures finish: the drain loop runs
inside the `with` block; when `future.result()` raises, the exception
propagates out of the `with` statement (whose `__exit__` only calls
`shutdown(wait=True)` and re-raises nothing of its own), so lines 83-85 —
`total_end = time.time()` and the total-time `print` — never run and the
interpreter terminates with the uncaught exception (non-zero process exit).
Returns the lines printed by the main thread after the drain, paired with the
propagated exception, if any, as the process outcome. -/
def mainTail (outcomes : List (Except PyExn Unit)) (totalStart totalEnd : ℚ) :
    List String × Option PyExn :=
  match drainLoop outcomes with
  | .ok _ => ([totalTimeLine (totalEnd - totalStart)], none)
  | .error e => ([], some e)

/-- Host facts visible to the script: `os.cpu_count()` and the process
argument vector. The source never reads `sys.argv` or any configuration
input, but `argv` is carried so that insensitivity to it is expressible. -/
structure HostEnv where
  cpuCount : ℕ
  argv : List String

/-- Line 66 of the source:
`ThreadPoolExecutor(max_workers=os.cpu_count())` — the pool width is the
host's CPU count, taken from the environment and from nothing else. -/
def workerPoolWidth (env : HostEnv) : ℕ :=
  env.cpuCount

/-- State of the worker pool created at line 66 of the source: the submitted
task indices not yet picked up by a worker (in submission order — the
executor's work queue is FIFO), the tasks currently executing on a worker
thread, and the tasks that have run to completion (normal return or stored
exception). -/
structure PoolState where
  pending : List ℕ
  running : Finset ℕ
  done : Finset ℕ
deriving DecidableEq

/-- Small-step semantics of `ThreadPoolExecutor(max_workers=W)` with the
tasks of lines 68-77 submitted up front, following the executor's documented
behaviour: an idle worker (fewer than `W` tasks running) may pick up the next
queued task, and a running task may finish. `outcome` assigns each task the
result its `timeRunCmd` call will store in its future; no transition consults
it — the pool schedules, and `shutdown(wait=True)` drains, identically
whether tasks fail or succeed, and no transition cancels or skips a task. -/
inductive PoolStep (W : ℕ) (outcome : ℕ → Except PyExn Unit) :
    PoolState → PoolState → Prop where
  | start {i : ℕ} {rest : List ℕ} {r d : Finset ℕ} :
      r.card < W →
      PoolStep W outcome ⟨i :: rest, r, d⟩ ⟨rest, insert i r, d⟩
  | finish {p : List ℕ} {r d : Finset ℕ} {i : ℕ} :
      i ∈ r →
      PoolStep W outcome ⟨p, r, d⟩ ⟨p, r.erase i, insert i d⟩

/-- Reachability in zero or more pool steps. -/
def PoolReach (W : ℕ) (outcome : ℕ → Except PyExn Unit) :
    PoolState → PoolState → Prop :=
  Relation.ReflTransGen (PoolStep W outcome)

/-- Pool state right after the submission loops of lines 68-77: all `N`
submitted tasks queued in submission order, none started. -/
def initState (N : ℕ) : PoolState :=
  ⟨List.range N, ∅, ∅⟩

/-- Multiset of all task indices present in a state, with multiplicity. -/
def stateTasks (s : PoolState) : Multiset ℕ :=
  (s.pending : Multiset ℕ) + s.running.val + s.done.val

/-- A state in which the executor's `shutdown(wait=True)` — run by the `with`
statement's `__exit__` on both the normal and the exceptional path — can
return: the work queue is empty and no worker is still executing. -/
def terminalState (s : PoolState) : Prop :=
  s.pending = [] ∧ s.running = ∅

/-- One pool step neither duplicates nor drops a task: given that no task
index occurs twice in the state, the multiset of task indices is preserved. -/
theorem stateTasks_step {W : ℕ} {o : ℕ → Except PyExn Unit} {s t : PoolState}
    (hstep : PoolStep W o s t) (hnd : (stateTasks s).Nodup) :
    stateTasks t = stateTasks s := by
  cases hstep with
  | @start i rest r d hcard =>
      have hir : i ∉ r := by
        intro hmem
        have h1 : 1 < Multiset.count i (stateTasks ⟨i :: rest, r, d⟩) := by
          simp only [stateTasks, Multiset.count_add]
          have hc1 : 1 ≤ Multiset.count i (↑(i :: rest) : Multiset ℕ) := by
            simp [Multiset.count_cons_self, Nat.succ_le_iff]
          have hc2 : 1 ≤ Multiset.count i r.val := by
            rw [Multiset.one_le_count_iff_mem]; exact hmem
          omega
        have h2 : Multiset.count i (stateTasks ⟨i :: rest, r, d⟩) ≤ 1 :=
          Multiset.nodup_iff_count_le_one.mp hnd i
        omega
      simp only [stateTasks]
      rw [Finset.insert_val_of_not_mem hir]
      rw [← Multiset.cons_coe, ← Multiset.singleton_add, ← Multiset.singleton_add]
      abel
  | @finish p r d i hmem =>
      have hid : i ∉ d := by
        intro hmemd
        have h1 : 1 < Multiset.count i (stateTasks ⟨p, r, d⟩) := by
          simp only [stateTasks, Multiset.count_add]
          have hc1 : 1 ≤ Multiset.count i r.val := by
            rw [Multiset.one_le_count_iff_mem]; exact hmem
          have hc2 : 1 ≤ Multiset.count i d.val := by
            rw [Multiset.one_le_count_iff_mem]; exact hmemd
          omega
        have h2 : Multiset.count i (stateTasks ⟨p, r, d⟩) ≤ 1 :=
          Multiset.nodup_iff_count_le_one.mp hnd i
        omega
      simp only [stateTasks]
      rw [Finset.insert_val_of_not_mem hid, Finset.erase_val]
      have hrv : r.val = {i} + r.val.erase i := by
        rw [Multiset.singleton_add, Multiset.cons_erase hmem]
      rw [← Multiset.singleton_add]
      conv_rhs => rw [hrv]
      abel

/-- Along any pool run, the multiset of task indices is preserved. -/
theorem stateTasks_reach {W : ℕ} {o : ℕ → Except PyExn Unit} {s t : PoolState}
    (hreach : PoolReach W o s t) (hnd : (stateTasks s).Nodup) :
    stateTasks t = stateTasks s := by
  induction hreach with
  | refl => rfl
  | tail hst hstep ih =>
      rw [stateTasks_step hstep (ih ▸ hnd), ih]

/-- Along any pool run from a state within the width bound, at most `W` tasks
are running at any reachable instant. -/
theorem card_running_reach {W : ℕ} {o : ℕ → Except PyExn Unit} {s t : PoolState}
    (hreach : PoolReach W o s t) (hcard : s.running.card ≤ W) :
    t.running.card ≤ W := by
  induction hreach with
  | refl => exact hcard
  | tail hst hstep ih =>
      cases hstep with
      | @start i rest r d hlt =>
          have h1 := Finset.card_insert_le i r
          show (insert i r).card ≤ W
          omega
      | @finish p r d i hmem =>
          have h1 := Finset.card_erase_le (s := r) (a := i)
          have h2 : r.card ≤ W := ih
          show (r.erase i).card ≤ W
          omega

/-- The initial state holds exactly the `N` submitted task indices. -/
theorem stateTasks_init (N : ℕ) : stateTasks (initState N) = Multiset.range N := by
  simp [stateTasks, initState, Multiset.range]

/-- No task index is duplicated at submission time. -/
theorem nodup_stateTasks_init (N : ℕ) : (stateTasks (initState N)).Nodup := by
  rw [stateTasks_init]
  exact Multiset.nodup_range N

/-- From any state, the pool can always drain to a terminal state when it has
at least one worker: nothing ever blocks the remaining tasks. -/
theorem exists_terminal (W : ℕ) (o : ℕ → Except PyExn Unit) (hW : 0 < W)
    (s : PoolState) : ∃ t, PoolReach W o s t ∧ terminalState t := by
  generalize hm : 2 * s.pending.length + s.running.card = n
  induction n using Nat.strong_induction_on generalizing s with
  | _ n ih =>
    obtain ⟨p, r, d⟩ := s
    by_cases hr : r = ∅
    · subst hr
      cases p with
      | nil => exact ⟨⟨[], ∅, d⟩, Relation.ReflTransGen.refl, rfl, rfl⟩
      | cons i rest =>
          have hstep : PoolStep W o ⟨i :: rest, ∅, d⟩ ⟨rest, insert i ∅, d⟩ :=
            PoolStep.start (by simpa using hW)
          obtain ⟨t, hrt, hterm⟩ :=
            ih (2 * rest.length + (insert i (∅ : Finset ℕ)).card)
              (by simp at hm ⊢; omega) ⟨rest, insert i ∅, d⟩ rfl
          exact ⟨t, Relation.ReflTransGen.head hstep hrt, hterm⟩
    · obtain ⟨i, hi⟩ := Finset.nonempty_of_ne_empty hr
      have hstep : PoolStep W o ⟨p, r, d⟩ ⟨p, r.erase i, insert i d⟩ :=
        PoolStep.finish hi
      have hcard : (r.erase i).card < r.card := Finset.card_erase_lt_of_mem hi
      obtain ⟨t, hrt, hterm⟩ :=
        ih (2 * p.length + (r.erase i).card)
          (by simp at hm ⊢; omega) ⟨p, r.erase i, insert i d⟩ rfl
      exact ⟨t, Relation.ReflTransGen.head hstep hrt, hterm⟩

/-- C1: for every task whose command runs and exits with a non-zero status,
`timeRunCmd` emits one complete LogBlock — header identifying the command, the
captured merged output, a failure line citing the exit status, and the
elapsed-time footer — as a single print, and only after that print does it
re-raise the `CalledProcessError` carrying the exit status and captured
output: the observable trace is exactly the print followed by the raise, so
logging is never skipped on the failure path. -/
theorem C1_failure_logs_before_reraise
    (exec : String → ExecResult) (startT endT : ℚ) (arg out : String) (code : Int)
    (hexec : exec arg = .completed out code) (hcode : code ≠ 0) :
    timeRunCmd exec startT endT arg =
      [Event.print (String.intercalate "\n"
          [commandHeader arg, out, failureLine code, timeTakenLine (endT - startT)]),
       Event.raiseExn (.calledProcessError code out)] := by
  simp [timeRunCmd, runCmd, hexec, hcode]

/-- Witness for C1 at a concrete failing command. -/
theorem C1_witness :
    ((fun _ : String => ExecResult.completed "boom" 3) "ls" = ExecResult.completed "boom" 3) ∧
    ((3 : Int) ≠ 0) ∧
    timeRunCmd (fun _ => .completed "boom" 3) 0 1 "ls" =
      [Event.print (String.intercalate "\n"
          [commandHeader "ls", "boom", failureLine 3, timeTakenLine (1 - 0)]),
       Event.raiseExn (.calledProcessError 3 "boom")] :=
  ⟨rfl, by decide,
   C1_failure_logs_before_reraise (fun _ => .completed "boom" 3) 0 1 "ls" "boom" 3 rfl (by decide)⟩

/-- C4: for every task whose command exits with status 0, `timeRunCmd` prints a
LogBlock consisting of the command header, the captured merged output only if
it is non-empty, and the footer `Time taken: {elapsed rounded to 2 decimals}
seconds`, and then returns normally (the task's future reports success). -/
theorem C4_success_logblock
    (exec : String → ExecResult) (startT endT : ℚ) (arg out : String)
    (hexec : exec arg = .completed out 0) :
    timeRunCmd exec startT endT arg =
      [Event.print (String.intercalate "\n"
          (if out ≠ "" then
            [commandHeader arg, out, "Time taken: " ++ reprRound2 (endT - startT) ++ " seconds"]
          else
            [commandHeader arg, "Time taken: " ++ reprRound2 (endT - startT) ++ " seconds"])),
       Event.ret] := by
  have hfooter : timeTakenLine (endT - startT) =
      "Time taken: " ++ reprRound2 (endT - startT) ++ " seconds" := rfl
  rw [← hfooter]
  simp [timeRunCmd, runCmd, hexec]

/-- Witness for C4 at a concrete succeeding command with non-empty output. -/
theorem C4_witness :
    ((fun _ : String => ExecResult.completed "policy\n" 0) "g" = ExecResult.completed "policy\n" 0) ∧
    timeRunCmd (fun _ => .completed "policy\n" 0) 0 (5/2) "g" =
      [Event.print (String.intercalate "\n"
          (if "policy\n" ≠ "" then
            [commandHeader "g", "policy\n", "Time taken: " ++ reprRound2 (5/2 - 0) ++ " seconds"]
          else
            [commandHeader "g", "Time taken: " ++ reprRound2 (5/2 - 0) ++ " seconds"])),
       Event.ret] :=
  ⟨rfl, C4_success_logblock (fun _ => .completed "policy\n" 0) 0 (5/2) "g" "policy\n" rfl⟩

/-- C10: for an exception during command execution that is not a non-zero-exit
failure — a spawn-level `OSError` not caught by the `except
subprocess.CalledProcessError` clause — `timeRunCmd` still prints a LogBlock
consisting of exactly the command header and the elapsed-time footer (no
failure-marker line, since the `except` clause never ran), and only then does
the exception propagate to the caller. -/
theorem C10_oserror_logs_header_and_footer
    (exec : String → ExecResult) (startT endT : ℚ) (arg m : String)
    (hexec : exec arg = .oserror m) :
    timeRunCmd exec startT endT arg =
      [Event.print (String.intercalate "\n"
          [commandHeader arg, timeTakenLine (endT - startT)]),
       Event.raiseExn (.osError m)] := by
  simp [timeRunCmd, runCmd, hexec]

/-- Witness for C10 at a concrete unspawnable shell. -/
theorem C10_witness :
    ((fun _ : String => ExecResult.oserror "ENOENT") "ls" = ExecResult.oserror "ENOENT") ∧
    timeRunCmd (fun _ => .oserror "ENOENT") 0 1 "ls" =
      [Event.print (String.intercalate "\n"
          [commandHeader "ls", timeTakenLine (1 - 0)]),
       Event.raiseExn (.osError "ENOENT")] :=
  ⟨rfl, C10_oserror_logs_header_and_footer (fun _ => .oserror "ENOENT") 0 1 "ls" "ENOENT" rfl⟩

/-- When a failure exists in completion order, the drain loop raises the first
one. -/
theorem drainLoop_of_firstError {outcomes : List (Except PyExn Unit)} {e : PyExn}
    (h : firstError outcomes = some e) : drainLoop outcomes = .error e := by
  induction outcomes with
  | nil => simp [firstError] at h
  | cons x rest ih =>
      cases x with
      | ok u => simp [firstError] at h; simpa [drainLoop] using ih h
      | error f => simp [firstError] at h; simp [drainLoop, h]

/-- C2 counterexample: a batch whose single task failed with exit status 1
propagates the failure, but prints nothing after the drain — in particular the
`Total time taken` line never appears, even though the clock readings (0 and 5)
are available. -/
theorem C2_counterexample :
    mainTail [Except.error (PyExn.calledProcessError 1 "boom")] 0 5 =
      ([], some (PyExn.calledProcessError 1 "boom")) := by
  decide

/-- C2 amended: when at least one task fails, the drain loop re-raises the
first failure in completion order, propagating its exit status and captured
output as the process outcome, but the batch's total elapsed time is not
reported: the uncaught exception leaves the `with` block before line 85, so no
line at all — in particular no `Total time taken` line — is printed by the
main thread. The total elapsed time is printed only when every task succeeds. -/
theorem C2_failure_skips_total_time
    (outcomes : List (Except PyExn Unit)) (ts te : ℚ) (e : PyExn)
    (hfail : firstError outcomes = some e) :
    mainTail outcomes ts te = ([], some e) := by
  simp [mainTail, drainLoop_of_firstError hfail]

/-- Witness for the amended C2 at a concrete two-task batch. -/
theorem C2_witness :
    firstError [Except.ok (), Except.error (PyExn.calledProcessError 2 "x")] =
      some (PyExn.calledProcessError 2 "x") ∧
    mainTail [Except.ok (), Except.error (PyExn.calledProcessError 2 "x")] 0 7 =
      ([], some (PyExn.calledProcessError 2 "x")) :=
  ⟨by decide,
   C2_failure_skips_total_time [Except.ok (), Except.error (PyExn.calledProcessError 2 "x")]
     0 7 (PyExn.calledProcessError 2 "x") (by decide)⟩

/-- The value a task's future stores, as read by `future.result()` at line 81:
the exception that escaped `timeRunCmd`, or a `None` return. -/
def futureOutcome (trace : List Event) : Except PyExn Unit :=
  match trace.getLast? with
  | some (.raiseExn e) => .error e
  | _ => .ok ()

/-- Oracle for the concrete missing-binary scenario under the source's
`shell=True`: `subprocess.run` spawns `/bin/sh -c arg`; the shell itself
spawns fine, prints a `not found` diagnostic on the merged stream, and exits
with status 127 (POSIX behaviour) — no OS-level spawn failure occurs. -/
def missingBinaryExec : String → ExecResult :=
  fun arg => .completed (arg ++ ": not found\n") 127

/-- C6 counterexample: for the task `nonexistent_binary`, `runCmd` reports an
ordinary `CalledProcessError` that carries the child's exit status 127 and its
captured output — not a spawn-level error without an exit status, as the claim
asserts. -/
theorem C6_counterexample :
    runCmd missingBinaryExec "nonexistent_binary" =
      .error (.calledProcessError 127 ("nonexistent_binary" ++ ": not found\n")) := by
  simp [runCmd, missingBinaryExec]

/-- C6 amended: because `runCmd` wraps every command in a shell
(`shell=True`), a task whose binary does not exist is reported as an ordinary
`CalledProcessError` carrying the shell's exit status (127) and captured
diagnostic output — not as a distinct spawn error, and the child-process exit
status *is* available; the batch outcome is still failure, with no total-time
line printed. -/
theorem C6_missing_binary_is_command_failure
    (exec : String → ExecResult) (startT endT ts te : ℚ) (arg out : String)
    (hexec : exec arg = .completed out 127) :
    runCmd exec arg = .error (.calledProcessError 127 out) ∧
    futureOutcome (timeRunCmd exec startT endT arg) =
      .error (.calledProcessError 127 out) ∧
    mainTail [futureOutcome (timeRunCmd exec startT endT arg)] ts te =
      ([], some (.calledProcessError 127 out)) := by
  have hrun : runCmd exec arg = .error (.calledProcessError 127 out) := by
    simp [runCmd, hexec]
  have hfut : futureOutcome (timeRunCmd exec startT endT arg) =
      .error (.calledProcessError 127 out) := by
    simp [timeRunCmd, hrun, futureOutcome]
  exact ⟨hrun, hfut, by simp [mainTail, drainLoop, hfut]⟩

/-- Witness for the amended C6 at the concrete missing-binary oracle. -/
theorem C6_witness :
    missingBinaryExec "nonexistent_binary" =
      .completed ("nonexistent_binary" ++ ": not found\n") 127 ∧
    runCmd missingBinaryExec "nonexistent_binary" =
      .error (.calledProcessError 127 ("nonexistent_binary" ++ ": not found\n")) ∧
    futureOutcome (timeRunCmd missingBinaryExec 0 1 "nonexistent_binary") =
      .error (.calledProcessError 127 ("nonexistent_binary" ++ ": not found\n")) ∧
    mainTail [futureOutcome (timeRunCmd missingBinaryExec 0 1 "nonexistent_binary")] 0 1 =
      ([], some (.calledProcessError 127 ("nonexistent_binary" ++ ": not found\n"))) :=
  ⟨rfl, (C6_missing_binary_is_command_failure missingBinaryExec 0 1 0 1 "nonexistent_binary"
      ("nonexistent_binary" ++ ": not found\n") rfl).1,
   (C6_missing_binary_is_command_failure missingBinaryExec 0 1 0 1 "nonexistent_binary"
      ("nonexistent_binary" ++ ": not found\n") rfl).2.1,
   (C6_missing_binary_is_command_failure missingBinaryExec 0 1 0 1 "nonexistent_binary"
      ("nonexistent_binary" ++ ": not found\n") rfl).2.2⟩

/-- C8 counterexample: with 4 CPUs, a caller attempting to override the pool
width through the argument vector still gets width 4 — the script reads no
configuration at all, so the width cannot be overridden. -/
theorem C8_counterexample :
    workerPoolWidth ⟨4, ["--max-workers", "8"]⟩ = 4 ∧
    workerPoolWidth ⟨4, []⟩ = 4 :=
  ⟨rfl, rfl⟩

/-- C8 amended: the worker-pool width is always exactly the host's
`os.cpu_count()`; the script exposes no configuration knob, so the width is
insensitive to anything the caller passes. -/
theorem C8_width_is_cpu_count_only (env : HostEnv) :
    workerPoolWidth env = env.cpuCount :=
  rfl

/-- Selects file-write events in a trace. -/
def isFileWrite : Event → Bool
  | .writeFile _ _ => true
  | _ => false

/-- Selects print (standard-output write) events in a trace. -/
def isPrintEvent : Event → Bool
  | .print _ => true
  | _ => false

/-- C5 counterexample: for the concrete task built from `pod.yaml` — whose
declared destination is `regoFile "pod.yaml" = "/tmp/pod-rego.txt"` — a
successful run's trace performs no file write at all: its only write is a
single print of the LogBlock to the harness's shared standard output, so the
LogBlock is not written to the task's own log destination. -/
theorem C5_counterexample :
    (timeRunCmd (fun _ => .completed "" 0) 0 1 (cmdDefault "pod.yaml")).filter isFileWrite = [] ∧
    timeRunCmd (fun _ => .completed "" 0) 0 1 (cmdDefault "pod.yaml") =
      [Event.print (String.intercalate "\n"
          [commandHeader (cmdDefault "pod.yaml"), timeTakenLine (1 - 0)]),
       Event.ret] ∧
    regoFile "pod.yaml" = "/tmp/pod-rego.txt" := by
  refine ⟨?_, ?_, ?_⟩
  · simp [timeRunCmd, runCmd, isFileWrite]
  · simp [timeRunCmd, runCmd]
  · decide

/-- C5 amended: each task's assembled LogBlock is written in one single
`print` call to the harness's shared standard output — the trace of
`timeRunCmd` contains exactly one print, which is its first event, and no
file-write event; the task's declared rego destination is instead populated
by the external command's own shell redirection, outside the runner. -/
theorem C5_logblock_goes_to_stdout
    (exec : String → ExecResult) (startT endT : ℚ) (arg : String) :
    (timeRunCmd exec startT endT arg).filter isFileWrite = [] ∧
    ∃ block, ((timeRunCmd exec startT endT arg).filter isPrintEvent = [Event.print block] ∧
      (timeRunCmd exec startT endT arg).head? = some (Event.print block)) := by
  unfold timeRunCmd
  rcases hr : runCmd exec arg with e | p
  · cases e with
    | calledProcessError code out =>
        exact ⟨by simp [isFileWrite],
          String.intercalate "\n" [commandHeader arg, out, failureLine code,
            timeTakenLine (endT - startT)],
          by simp [isPrintEvent], rfl⟩
    | osError m =>
        exact ⟨by simp [isFileWrite],
          String.intercalate "\n" [commandHeader arg, timeTakenLine (endT - startT)],
          by simp [isPrintEvent], rfl⟩
  · by_cases hout : p.stdout ≠ ""
    · exact ⟨by simp [isFileWrite, hout],
        String.intercalate "\n" [commandHeader arg, p.stdout, timeTakenLine (endT - startT)],
        by simp [isPrintEvent, hout], by simp [hout]⟩
    · exact ⟨by simp [isFileWrite, hout],
        String.intercalate "\n" [commandHeader arg, timeTakenLine (endT - startT)],
        by simp [isPrintEvent, hout], by simp [hout]⟩

/-- String concatenation with fixed outer parts is injective in the middle
part. -/
theorem middle_append_inj {pre suf a b : String}
    (h : pre ++ a ++ suf = pre ++ b ++ suf) : a = b := by
  apply String.ext
  have hd := congrArg String.data h
  simp only [String.data_append] at hd
  exact List.append_cancel_left (List.append_cancel_right hd)

/-- Two files get the same rego destination exactly when their basename stems
agree. -/
theorem regoFile_eq_iff (f g : String) :
    regoFile f = regoFile g ↔ stem (basename f) = stem (basename g) := by
  constructor
  · intro h
    exact middle_append_inj h
  · intro h
    simp [regoFile, h]

/-- C9: whenever the catalog's files have pairwise-distinct basename stems —
which holds for the sample catalog of `policy_samples.json` per the spec —
every submitted task is assigned a rego destination unique to it: no two
distinct tasks share one log destination, so no write lock is needed. -/
theorem C9_unique_destinations (s : Samples)
    (h : (catalogFiles s).Pairwise (fun a b => stem (basename a) ≠ stem (basename b))) :
    ((catalogFiles s).map regoFile).Pairwise (fun a b => a ≠ b) := by
  refine List.Pairwise.map regoFile ?_ h
  intro a b hab heq
  exact hab ((regoFile_eq_iff a b).mp heq)

/-- Witness for C9 at a concrete catalog with one file per category. -/
theorem C9_witness :
    (catalogFiles ⟨["pod/pod-one-container.yaml"], ["config-map.yaml"],
        ["cronjob.yaml"], ["secrets.yaml"], ["job.yaml"]⟩).Pairwise
      (fun a b => stem (basename a) ≠ stem (basename b)) ∧
    ((catalogFiles ⟨["pod/pod-one-container.yaml"], ["config-map.yaml"],
        ["cronjob.yaml"], ["secrets.yaml"], ["job.yaml"]⟩).map regoFile).Pairwise
      (fun a b => a ≠ b) :=
  ⟨by decide,
   C9_unique_destinations ⟨["pod/pod-one-container.yaml"], ["config-map.yaml"],
      ["cronjob.yaml"], ["secrets.yaml"], ["job.yaml"]⟩ (by decide)⟩

/-- C7: with pool width `W = workerPoolWidth env` — the host's hardware
parallelism, line 66 of the source — and `N > W` submitted tasks, every pool
state reachable from submission has at most `W` tasks running at any instant,
and when the pool has drained (terminal state), every one of the `N` submitted
tasks has been started and run exactly once: `done` is exactly the full task
set, which the conserved no-duplicate task multiset reaches only by starting
each task a single time. -/
theorem C7_width_bound_and_each_task_once
    (env : HostEnv) (o : ℕ → Except PyExn Unit) (N : ℕ) (s : PoolState)
    (_hgt : workerPoolWidth env < N)
    (hreach : PoolReach (workerPoolWidth env) o (initState N) s) :
    s.running.card ≤ workerPoolWidth env ∧
    (terminalState s → s.done = Finset.range N) := by
  constructor
  · exact card_running_reach hreach (by simp [initState])
  · intro hterm
    have h1 := stateTasks_reach hreach (nodup_stateTasks_init N)
    rw [stateTasks_init] at h1
    obtain ⟨hp, hr⟩ := hterm
    rw [← Finset.val_inj, Finset.range_val, ← h1]
    simp [stateTasks, hp, hr]

/-- Witness for C7: 3 tasks on a 2-CPU host, at the submission state. -/
theorem C7_witness :
    workerPoolWidth ⟨2, []⟩ < 3 ∧
    ((initState 3).running.card ≤ workerPoolWidth ⟨2, []⟩ ∧
      (terminalState (initState 3) → (initState 3).done = Finset.range 3)) :=
  ⟨by decide,
   C7_width_bound_and_each_task_once ⟨2, []⟩ (fun _ => .ok ()) 3 (initState 3)
     (by decide) Relation.ReflTransGen.refl⟩

/-- C3: drain-to-completion without cancellation. Even when a submitted task
`j` fails, from every reachable pool state the pool can continue to a drained
terminal state in which every submitted task — the failing one and all others,
already-started or still queued — has run to completion. No transition of the
pool consults task outcomes, and the `with` block's `shutdown(wait=True)`
(which runs on the exception path too) is exactly the wait for such a terminal
state. -/
theorem C3_failure_cancels_nothing
    (W N : ℕ) (o : ℕ → Except PyExn Unit) (j : ℕ) (e : PyExn)
    (hW : 0 < W) (_hjf : o j = .error e) (s : PoolState)
    (hreach : PoolReach W o (initState N) s) :
    ∃ t, PoolReach W o s t ∧ terminalState t ∧ ∀ i ∈ Finset.range N, i ∈ t.done := by
  obtain ⟨t, hst, hterm⟩ := exists_terminal W o hW s
  refine ⟨t, hst, hterm, ?_⟩
  intro i hi
  have h1 := stateTasks_reach (hreach.trans hst) (nodup_stateTasks_init N)
  rw [stateTasks_init] at h1
  obtain ⟨hp, hr⟩ := hterm
  have hmem : i ∈ stateTasks t := by
    rw [h1, Multiset.mem_range]
    exact Finset.mem_range.mp hi
  simpa [stateTasks, hp, hr] using hmem

/-- Witness for C3: two tasks on one worker, the first of which fails. -/
theorem C3_witness :
    (0 : ℕ) < 1 ∧
    ((fun _ : ℕ => (Except.error (PyExn.calledProcessError 1 "boom") : Except PyExn Unit)) 0 =
      Except.error (PyExn.calledProcessError 1 "boom")) ∧
    ∃ t, PoolReach 1 (fun _ => .error (PyExn.calledProcessError 1 "boom")) (initState 2) t ∧
      terminalState t ∧ ∀ i ∈ Finset.range 2, i ∈ t.done :=
  ⟨by decide, rfl,
   C3_failure_cancels_nothing 1 2 (fun _ => .error (PyExn.calledProcessError 1 "boom")) 0
     (PyExn.calledProcessError 1 "boom") (by decide) rfl (initState 2)
     Relation.ReflTransGen.refl⟩
